import Mathlib

/-!
# OSAQS firmware: display loop and CO2 acquisition cycle

A shallow embedding of `src/main.cpp`:

* the configuration constants (`CO2_MAX`, `CO2_MIN`, hue end points,
  `CO2_SMOOTHING_FACTOR`, `PIXEL_COUNT`, `PPM_PER_PIXEL`);
* `mapCO2ToHue`, over exact rationals;
* the body of the `while (true)` loop of `AddressableRGBLeds`, as a step
  function on the display state that returns the strip driver calls it issues;
* the publishing part of one iteration of `CO2Sensor`.

Machine integers are naturals with an explicit reduction modulo `2^16`
(`uint16_t`) or `2^8` (`uint8_t`) where the source stores into such a variable;
integer promotion to the 32 bit `int` is modelled with `Int`.
-/

namespace OSAQS

/-! ## Configuration constants -/

/-- Top of the CO2 scale, in ppm. -/
def CO2_MAX : Nat := 2000

/-- Hue at the top of the scale (red). -/
def CO2_MAX_HUE : ℚ := 0

/-- Bottom of the CO2 scale, in ppm. -/
def CO2_MIN : Nat := 450

/-- Hue at the bottom of the scale (green). -/
def CO2_MIN_HUE : ℚ := 3 / 10

/-- Weight of the running value in the smoothing update. -/
def CO2_SMOOTHING_FACTOR : Nat := 100

/-- Number of pixels of the strip; valid indices are `0 .. PIXEL_COUNT - 1`. -/
def PIXEL_COUNT : Nat := 9

/-- Width of one pixel band, `(CO2_MAX - CO2_MIN) / PIXEL_COUNT` in integer division. -/
def PPM_PER_PIXEL : Nat := (CO2_MAX - CO2_MIN) / PIXEL_COUNT

/-- Initial value of the global `co2`. -/
def co2Initial : Nat := 450

/-! ## Colours and strip driver calls -/

/-- Colour values handed to the strip driver: `HsbColor(h, s, b)` or `RgbColor(r, g, b)`. -/
inductive Color where
  | hsb (h s b : ℚ)
  | rgb (r g b : Nat)
  deriving DecidableEq

/-- The colour `OFF`, that is `RgbColor(0)`. -/
def OFF : Color := Color.rgb 0 0 0

/-- The colour `WARNING_COLOR`, that is `HsbColor(CO2_MAX_HUE, 1.0f, 1.0f)`. -/
def WARNING_COLOR : Color := Color.hsb CO2_MAX_HUE 1 1

/-- One call on the strip driver object, with its arguments as passed. -/
inductive StripCmd where
  | SetLuminance (l : Nat)
  | ClearTo (c : Color)
  | ClearToRange (c : Color) (first last : Nat)
  | SetPixelColor (indexPixel : Nat) (c : Color)
  | Show
  deriving DecidableEq

/-! ## Display state -/

/-- Local variables of `AddressableRGBLeds` that live across frames, and the control
location: `inAlarm` is true while control is inside `while (co2 > CO2_MAX)`. -/
structure DisplayState where
  ppmDrawn : Nat
  hue : ℚ
  brightness : Nat
  ledCO2 : Nat
  inAlarm : Bool
  deriving DecidableEq

/-- State on entry to the `while (true)` loop. -/
def initialState : DisplayState :=
  { ppmDrawn := 0, hue := CO2_MIN_HUE, brightness := 255, ledCO2 := CO2_MIN, inAlarm := false }

/-! ## Operations -/

/-- Hue for a smoothed CO2 value; the subtraction `ledCO2 - CO2_MIN` is done in `int`. -/
def mapCO2ToHue (ledCO2 : Nat) : ℚ :=
  (((ledCO2 : Int) - (CO2_MIN : Int) : Int) : ℚ) * (CO2_MAX_HUE - CO2_MIN_HUE)
    / (((CO2_MAX : Int) - (CO2_MIN : Int) : Int) : ℚ) + CO2_MIN_HUE

/-- The smoothing update of line 129, stored back into the `uint16_t` variable `ledCO2`. -/
def smoothCO2 (ledCO2 co2 : Nat) : Nat :=
  ((ledCO2 * (CO2_SMOOTHING_FACTOR - 1) + co2) / CO2_SMOOTHING_FACTOR) % 65536

/-- The band accumulation loop of lines 134 to 137, returning `(ppmDrawn, currentPixel)`
at loop exit. The comparison is done in `int`; `ppmDrawn` is a `uint16_t` and
`currentPixel` a `uint8_t`. The first argument bounds the number of iterations. -/
def bandLoop : Nat → Nat → Nat → Nat → Nat × Nat
  | 0, _, ppmDrawn, currentPixel => (ppmDrawn, currentPixel)
  | fuel + 1, ledCO2, ppmDrawn, currentPixel =>
    if (ppmDrawn : Int) ≤ (ledCO2 : Int) - (PPM_PER_PIXEL : Int) then
      bandLoop fuel ledCO2 ((ppmDrawn + PPM_PER_PIXEL) % 65536) ((currentPixel + 1) % 256)
    else
      (ppmDrawn, currentPixel)

/-- Lines 132 to 137: `ppmDrawn = CO2_MIN; currentPixel = 1;` followed by the loop.
Every iteration advances `ppmDrawn` by `PPM_PER_PIXEL` and keeps it at most `ledCO2`,
so `ledCO2` iterations are enough (see `findPixel_exit`). -/
def findPixel (ledCO2 : Nat) : Nat × Nat :=
  bandLoop ledCO2 ledCO2 CO2_MIN 1

/-- Conversion of an `int` argument to the `uint16_t` parameter of the driver. -/
def toU16 (i : Int) : Nat := (i % 65536).toNat

/-- Brightness of the in-between pixel, `float(ledCO2 - ppmDrawn) / float(PPM_PER_PIXEL)`,
over exact rationals; the difference is taken in `int`. -/
def inbetweenBrightness (ledCO2 ppmDrawn : Nat) : ℚ :=
  (((ledCO2 : Int) - (ppmDrawn : Int) : Int) : ℚ) / (PPM_PER_PIXEL : ℚ)

/-- Lines 139 to 143: the four driver calls of one gradient render. -/
def renderCmds (hue : ℚ) (ledCO2 ppmDrawn currentPixel : Nat) : List StripCmd :=
  [ StripCmd.ClearToRange (Color.hsb hue 1 1) 0 (toU16 ((currentPixel : Int) - 1)),
    StripCmd.SetPixelColor currentPixel
      (Color.hsb hue 1 (inbetweenBrightness ledCO2 ppmDrawn)),
    StripCmd.ClearToRange OFF (currentPixel + 1) PIXEL_COUNT,
    StripCmd.Show ]

/-- Lines 151 to 156: one pass through the body of the warning flash loop. -/
def flashCmds : List StripCmd :=
  [ StripCmd.ClearTo WARNING_COLOR, StripCmd.Show, StripCmd.ClearTo OFF, StripCmd.Show ]

/-- Lines 129 to 143: smoothing, hue, band search and render, for a frame that passed
both guards of lines 127 and 128. -/
def smoothAndRender (st : DisplayState) (co2 : Nat) : DisplayState × List StripCmd :=
  let ledCO2 := smoothCO2 st.ledCO2 co2
  let hue := mapCO2ToHue ledCO2
  let pc := findPixel ledCO2
  ({ st with ledCO2 := ledCO2, hue := hue, ppmDrawn := pc.1 },
   renderCmds hue ledCO2 pc.1 pc.2)

/-- One frame of the `while (true)` loop (lines 127 to 160) started with the value `co2`
of the global. When the frame enters the warning flash loop, the step ends after the
first pass through its body, with control inside the loop. -/
def frame (st : DisplayState) (co2 : Nat) : DisplayState × List StripCmd :=
  if CO2_MIN < co2 ∧ co2 < CO2_MAX then
    if st.ledCO2 ≠ co2 then smoothAndRender st co2 else (st, [])
  else if CO2_MAX < co2 then
    ({ st with brightness := 255, inAlarm := true }, StripCmd.SetLuminance 255 :: flashCmds)
  else
    (st, [])

/-- One evaluation of the guard `while (co2 > CO2_MAX)` after a pass through the loop
body, with the value `co2` of the global: another pass, or the exit through line 158. -/
def alarmCycle (st : DisplayState) (co2 : Nat) : DisplayState × List StripCmd :=
  if CO2_MAX < co2 then (st, flashCmds)
  else ({ st with ledCO2 := co2, inAlarm := false }, [])

/-- One step of the display loop for one observed value of the global `co2`:
a frame, or one guard evaluation of the warning flash loop. -/
def step (st : DisplayState) (co2 : Nat) : DisplayState × List StripCmd :=
  if st.inAlarm then alarmCycle st co2 else frame st co2

/-- The display loop driven by a sequence of observed `co2` values; returns the final
state and all driver calls issued, in order. -/
def run (st : DisplayState) : List Nat → DisplayState × List StripCmd
  | [] => (st, [])
  | c :: cs =>
    let r := step st c
    let r2 := run r.1 cs
    (r2.1, r.2 ++ r2.2)

/-- Lines 302 to 318 of `CO2Sensor`: the new value of the global `co2` after one
acquisition cycle. `readyError` is the error code left by the last `getDataReadyFlag`
call, `readError` the one of `readMeasurement`, `co2Raw` the measurement read. -/
def CO2SensorCycle (co2 readyError readError co2Raw : Nat) : Nat :=
  if readyError ≠ 0 then co2
  else if readError ≠ 0 then co2
  else if co2Raw = 0 then co2
  else co2Raw

/-- Outcome of one acquisition cycle, as seen at line 302. -/
structure Reading where
  readyError : Nat
  readError : Nat
  co2Raw : Nat

/-- The global `co2` after a sequence of acquisition cycles. -/
def publish (co2 : Nat) (rs : List Reading) : Nat :=
  rs.foldl (fun c r => CO2SensorCycle c r.readyError r.readError r.co2Raw) co2

/-! ## Basic facts -/

theorem PPM_PER_PIXEL_eq : PPM_PER_PIXEL = 172 := by decide

theorem smoothCO2_eq (s T : Nat) : smoothCO2 s T = ((s * 99 + T) / 100) % 65536 := rfl

/-- With 16 bit operands the smoothing update does not wrap. -/
theorem smoothCO2_u16 (s T : Nat) (hs : s < 65536) (hT : T < 65536) :
    smoothCO2 s T = (s * 99 + T) / 100 := by
  rw [smoothCO2_eq]; omega

/-- Fixed points of the smoothing update: the value stays put exactly when the target
is at or above it by less than `100`. -/
theorem smoothCO2_fixed_iff (s T : Nat) (hs : s < 65536) (hT : T < 65536) :
    smoothCO2 s T = s ↔ s ≤ T ∧ T < s + 100 := by
  rw [smoothCO2_u16 s T hs hT]; omega

/-- Above the target the smoothing update strictly decreases and stays at or above
the target. -/
theorem smoothCO2_falling (s T : Nat) (hs : s < 65536) (h : T < s) :
    T ≤ smoothCO2 s T ∧ smoothCO2 s T < s := by
  rw [smoothCO2_u16 s T hs (by omega)]; omega

/-- Loop invariant of the band accumulation loop: started at `p ≤ s` with enough fuel,
it adds `(s - p) / 172` bands. -/
theorem bandLoop_spec (s : Nat) (hs : s < 65536) :
    ∀ (fuel p c : Nat), p ≤ s → c < 256 → (s - p) / 172 ≤ fuel →
      bandLoop fuel s p c = (p + 172 * ((s - p) / 172), (c + (s - p) / 172) % 256) := by
  intro fuel
  induction fuel with
  | zero =>
    intro p c hp hc hq
    simp only [bandLoop]
    refine Prod.ext ?_ ?_ <;> simp only <;> omega
  | succ n ih =>
    intro p c hp hc hq
    rw [bandLoop, PPM_PER_PIXEL_eq]
    by_cases h : p + 172 ≤ s
    · have hg : (p : Int) ≤ (s : Int) - ((172 : Nat) : Int) := by omega
      have hp2 : (p + 172) % 65536 = p + 172 := by omega
      rw [if_pos hg, hp2, ih (p + 172) ((c + 1) % 256) h (by omega) (by omega)]
      refine Prod.ext ?_ ?_ <;> simp only <;> omega
    · have hg : ¬ ((p : Int) ≤ (s : Int) - ((172 : Nat) : Int)) := by omega
      rw [if_neg hg]
      refine Prod.ext ?_ ?_ <;> simp only <;> omega

/-- Below the bottom of the scale the loop body never runs. -/
theorem bandLoop_below (s : Nat) (hs : s < CO2_MIN + PPM_PER_PIXEL) (fuel c : Nat) :
    bandLoop fuel s CO2_MIN c = (CO2_MIN, c) := by
  rw [PPM_PER_PIXEL_eq] at hs
  cases fuel with
  | zero => rfl
  | succ n =>
    rw [bandLoop, PPM_PER_PIXEL_eq]
    have hg : ¬ ((CO2_MIN : Int) ≤ (s : Int) - ((172 : Nat) : Int)) := by
      simp only [CO2_MIN] at hs ⊢; omega
    rw [if_neg hg]

/-- The band search stops because its guard fails, not because the iteration bound of
the model is used up: at the values returned, `ppmDrawn <= ledCO2 - PPM_PER_PIXEL`
is false. -/
theorem findPixel_exit (s : Nat) (hs : s < 65536) :
    ¬ (((findPixel s).1 : Int) ≤ (s : Int) - (PPM_PER_PIXEL : Int)) := by
  rw [PPM_PER_PIXEL_eq]
  by_cases h : CO2_MIN ≤ s
  · have hq : (s - CO2_MIN) / 172 ≤ s := (Nat.div_le_self _ _).trans (Nat.sub_le _ _)
    rw [findPixel, bandLoop_spec s hs s CO2_MIN 1 h (by decide) hq]
    simp only [CO2_MIN] at h ⊢
    omega
  · have hlt : s < CO2_MIN + PPM_PER_PIXEL := by omega
    rw [findPixel, bandLoop_below s hlt]
    simp only [CO2_MIN] at h ⊢
    omega

/-- Closed form of the band search on the scale. -/
theorem findPixel_eq (s : Nat) (hmin : CO2_MIN ≤ s) (hs : s < 65536) :
    findPixel s = (CO2_MIN + 172 * ((s - CO2_MIN) / 172), (1 + (s - CO2_MIN) / 172) % 256) := by
  have hq : (s - CO2_MIN) / 172 ≤ s := (Nat.div_le_self _ _).trans (Nat.sub_le _ _)
  rw [findPixel, bandLoop_spec s hs s CO2_MIN 1 hmin (by decide) hq]

/-- Outside the warning flash loop a step is a frame. -/
theorem step_of_not_inAlarm (st : DisplayState) (co2 : Nat) (h : st.inAlarm = false) :
    step st co2 = frame st co2 := by
  simp [step, h]

/-- Inside the warning flash loop a step is a guard evaluation of that loop. -/
theorem step_of_inAlarm (st : DisplayState) (co2 : Nat) (h : st.inAlarm = true) :
    step st co2 = alarmCycle st co2 := by
  simp [step, h]

/-- A frame that passes the guards of lines 127 and 128 smooths and renders. -/
theorem frame_of_changed (st : DisplayState) (co2 : Nat) (h1 : CO2_MIN < co2)
    (h2 : co2 < CO2_MAX) (h3 : st.ledCO2 ≠ co2) :
    frame st co2 = smoothAndRender st co2 := by
  simp [frame, h1, h2, h3]

/-- Driver calls of a rendering step, in terms of the smoothed value before the step. -/
theorem step_render_cmds (st : DisplayState) (co2 s : Nat) (hA : st.inAlarm = false)
    (hs : st.ledCO2 = s) (h1 : CO2_MIN < co2) (h2 : co2 < CO2_MAX) (h3 : s ≠ co2) :
    (step st co2).2 = renderCmds (mapCO2ToHue (smoothCO2 s co2)) (smoothCO2 s co2)
      (findPixel (smoothCO2 s co2)).1 (findPixel (smoothCO2 s co2)).2 := by
  rw [step_of_not_inAlarm st co2 hA, frame_of_changed st co2 h1 h2 (by rw [hs]; exact h3),
    smoothAndRender, hs]

/-- A run over a non-empty sequence is a step followed by a run. -/
theorem run_cons (st : DisplayState) (c : Nat) (cs : List Nat) :
    run st (c :: cs) = ((run (step st c).1 cs).1, (step st c).2 ++ (run (step st c).1 cs).2) :=
  rfl

/-- Stall of the smoothing update in the display loop: with the smoothed value at `450`
and the global held at `500`, every step leaves the smoothed value at `450`. -/
theorem run_stalls (n : Nat) :
    ∀ st : DisplayState, st.ledCO2 = 450 → st.inAlarm = false →
      (run st (List.replicate n 500)).1.ledCO2 = 450 := by
  induction n with
  | zero => intro st h _; exact h
  | succ k ih =>
    intro st h hA
    rw [List.replicate_succ, run_cons]
    have hstep : step st 500 = smoothAndRender st 500 := by
      rw [step_of_not_inAlarm st 500 hA,
        frame_of_changed st 500 (by decide) (by decide) (by rw [h]; decide)]
    apply ih
    · rw [hstep, smoothAndRender, h]; rfl
    · rw [hstep, smoothAndRender]; exact hA

/-- Once the smoothed value equals the global, further steps with the same value
issue no driver call. -/
theorem run_idle (c : Nat) (h1 : CO2_MIN < c) (h2 : c < CO2_MAX) (n : Nat) :
    ∀ st : DisplayState, st.ledCO2 = c → st.inAlarm = false →
      run st (List.replicate n c) = (st, []) := by
  induction n with
  | zero => intro st _ _; rfl
  | succ k ih =>
    intro st h hA
    have hstep : step st c = (st, []) := by
      rw [step_of_not_inAlarm st c hA]
      simp [frame, h1, h2, h]
    rw [List.replicate_succ, run_cons, hstep, ih st h hA]
    rfl

/-- State after a rendering step, in terms of the smoothed value before the step. -/
theorem step_render_state (st : DisplayState) (co2 s : Nat) (hA : st.inAlarm = false)
    (hs : st.ledCO2 = s) (h1 : CO2_MIN < co2) (h2 : co2 < CO2_MAX) (h3 : s ≠ co2) :
    (step st co2).1 = { st with ledCO2 := smoothCO2 s co2,
                                hue := mapCO2ToHue (smoothCO2 s co2),
                                ppmDrawn := (findPixel (smoothCO2 s co2)).1 } := by
  rw [step_of_not_inAlarm st co2 hA, frame_of_changed st co2 h1 h2 (by rw [hs]; exact h3),
    smoothAndRender, hs]

/-- A frame with the global above `CO2_MAX` forces full luminance and flashes once. -/
theorem frame_alarm_entry (st : DisplayState) (co2 : Nat) (h : CO2_MAX < co2) :
    frame st co2 = ({ st with brightness := 255, inAlarm := true },
                    StripCmd.SetLuminance 255 :: flashCmds) := by
  have h1 : ¬ (CO2_MIN < co2 ∧ co2 < CO2_MAX) := fun hh => absurd hh.2 (Nat.lt_asymm h)
  simp [frame, h1, h]

/-- The warning flash loop takes another pass while the global is above `CO2_MAX`. -/
theorem alarmCycle_flash (st : DisplayState) (co2 : Nat) (h : CO2_MAX < co2) :
    alarmCycle st co2 = (st, flashCmds) := by
  simp [alarmCycle, h]

/-- The warning flash loop is left, through line 158, when the global is at most
`CO2_MAX`. -/
theorem alarmCycle_exit (st : DisplayState) (co2 : Nat) (h : co2 ≤ CO2_MAX) :
    alarmCycle st co2 = ({ st with ledCO2 := co2, inAlarm := false }, []) := by
  simp [alarmCycle, Nat.not_lt.mpr h]

/-- On the scale, the index of the in-between pixel is a valid strip index exactly
below `1826`, the start of the ninth band. -/
theorem findPixel_index_valid_iff (s : Nat) (hmin : CO2_MIN ≤ s) (hmax : s < CO2_MAX) :
    (findPixel s).2 < PIXEL_COUNT ↔ s < 1826 := by
  simp only [CO2_MAX] at hmax
  rw [findPixel_eq s hmin (by omega)]
  simp only [CO2_MIN, PIXEL_COUNT] at hmin ⊢
  omega

/-! ## Claims -/

/-- C10 (partial-pixel fraction). For `CO2_MIN ≤ s < CO2_MAX` the band search returns
`ppmDrawn = CO2_MIN + PPM_PER_PIXEL * ((s - CO2_MIN) / PPM_PER_PIXEL)` and
`currentPixel = 1 + (s - CO2_MIN) / PPM_PER_PIXEL`; it returns this for every iteration
bound that is at least the number of bands, and its guard is false on exit. Hence
`0 ≤ s - ppmDrawn < PPM_PER_PIXEL`, the brightness of the in-between pixel is in `[0, 1)`,
and it is `0` when `s` is on a band boundary. -/
theorem inbetween_pixel_fraction (s : Nat) (hmin : CO2_MIN ≤ s) (hmax : s < CO2_MAX) :
    findPixel s = (CO2_MIN + PPM_PER_PIXEL * ((s - CO2_MIN) / PPM_PER_PIXEL),
                   1 + (s - CO2_MIN) / PPM_PER_PIXEL)
    ∧ (∀ fuel, (s - CO2_MIN) / PPM_PER_PIXEL ≤ fuel →
        bandLoop fuel s CO2_MIN 1 = findPixel s)
    ∧ ¬ (((findPixel s).1 : Int) ≤ (s : Int) - (PPM_PER_PIXEL : Int))
    ∧ (findPixel s).1 ≤ s
    ∧ s - (findPixel s).1 < PPM_PER_PIXEL
    ∧ 0 ≤ inbetweenBrightness s (findPixel s).1
    ∧ inbetweenBrightness s (findPixel s).1 < 1
    ∧ ((s - CO2_MIN) % PPM_PER_PIXEL = 0 → inbetweenBrightness s (findPixel s).1 = 0) := by
  have hs : s < 65536 := by simp only [CO2_MAX] at hmax; omega
  have hex := findPixel_exit s hs
  have hfp := findPixel_eq s hmin hs
  have hcp : (1 + (s - CO2_MIN) / 172) % 256 = 1 + (s - CO2_MIN) / 172 := by
    simp only [CO2_MIN, CO2_MAX] at hmin hmax ⊢; omega
  rw [hcp] at hfp
  have h1 : (findPixel s).1 = CO2_MIN + 172 * ((s - CO2_MIN) / 172) := by rw [hfp]
  have hle : (findPixel s).1 ≤ s := by
    rw [h1]; simp only [CO2_MIN] at hmin ⊢; omega
  have hlt : s - (findPixel s).1 < 172 := by
    rw [h1]; simp only [CO2_MIN] at hmin ⊢; omega
  have hb : inbetweenBrightness s (findPixel s).1 = ((s - (findPixel s).1 : Nat) : ℚ) / 172 := by
    simp only [inbetweenBrightness, PPM_PER_PIXEL_eq]
    push_cast [Nat.cast_sub hle]
    rfl
  refine ⟨?_, ?_, hex, hle, ?_, ?_, ?_, ?_⟩
  · rw [PPM_PER_PIXEL_eq]; exact hfp
  · intro fuel hf
    rw [PPM_PER_PIXEL_eq] at hf
    rw [hfp, bandLoop_spec s hs fuel CO2_MIN 1 hmin (by decide) hf, hcp]
  · rw [PPM_PER_PIXEL_eq]; exact hlt
  · rw [hb]; positivity
  · rw [hb, div_lt_one (by norm_num)]
    exact_mod_cast hlt
  · intro hmod
    rw [PPM_PER_PIXEL_eq] at hmod
    have h0 : s - (findPixel s).1 = 0 := by
      rw [h1]; simp only [CO2_MIN] at hmin hmod ⊢; omega
    rw [hb, h0]; simp

/-- C10, instance: `s = 700` lies in the second band; `s = 622` is on a band boundary. -/
theorem inbetween_pixel_fraction_witness :
    findPixel 700 = (622, 2) ∧ inbetweenBrightness 622 (findPixel 622).1 = 0 :=
  ⟨(inbetween_pixel_fraction 700 (by decide) (by decide)).1,
   (inbetween_pixel_fraction 622 (by decide) (by decide)).2.2.2.2.2.2.2 (by decide)⟩

/-- C6 (smoothing never overshoots). For a smoothed value `s ≤ CO2_MAX` and a target
`CO2_MIN < T < CO2_MAX`, the updated value lies between `s` and `T`, and it differs
from `s` by at most the ceiling of `|T - s| / CO2_SMOOTHING_FACTOR`. -/
theorem smoothCO2_no_overshoot (s T : Nat) (hs : s ≤ CO2_MAX) (hT1 : CO2_MIN < T)
    (hT2 : T < CO2_MAX) :
    min s T ≤ smoothCO2 s T ∧ smoothCO2 s T ≤ max s T
    ∧ |((smoothCO2 s T : ℤ) - (s : ℤ))|
        ≤ ⌈|((T : ℚ) - (s : ℚ))| / (CO2_SMOOTHING_FACTOR : ℚ)⌉ := by
  simp only [CO2_MAX, CO2_MIN] at hs hT1 hT2
  have h1 : smoothCO2 s T = (s * 99 + T) / 100 := smoothCO2_u16 s T (by omega) (by omega)
  have hK : ((CO2_SMOOTHING_FACTOR : Nat) : ℚ) = 100 := by norm_num [CO2_SMOOTHING_FACTOR]
  refine ⟨?_, ?_, ?_⟩
  · rw [h1]; omega
  · rw [h1]; omega
  · have key : 100 * (|((smoothCO2 s T : ℤ) - (s : ℤ))| - 1) < |((T : ℤ) - (s : ℤ))| := by
      rw [h1]
      rcases le_total s T with h | h
      · rw [abs_of_nonneg (by omega), abs_of_nonneg (by omega)]; push_cast; omega
      · rw [abs_of_nonpos (by omega), abs_of_nonpos (by omega)]; push_cast; omega
    have keyQ := (Int.cast_lt (R := ℚ)).mpr key
    push_cast at keyQ
    have hlt : |((smoothCO2 s T : ℤ) - (s : ℤ))| - 1
        < ⌈|((T : ℚ) - (s : ℚ))| / (CO2_SMOOTHING_FACTOR : ℚ)⌉ := by
      rw [Int.lt_ceil, hK, lt_div_iff₀ (by norm_num)]
      push_cast
      linarith
    omega

/-- C6, instance: from `s = 1000` toward `T = 500` the value drops by `5` to `995`. -/
theorem smoothCO2_no_overshoot_witness :
    min 1000 500 ≤ smoothCO2 1000 500 ∧ smoothCO2 1000 500 ≤ max 1000 500
    ∧ |((smoothCO2 1000 500 : ℤ) - ((1000 : Nat) : ℤ))|
        ≤ ⌈|(((500 : Nat) : ℚ) - ((1000 : Nat) : ℚ))| / (CO2_SMOOTHING_FACTOR : ℚ)⌉ :=
  smoothCO2_no_overshoot 1000 500 (by decide) (by decide) (by decide)

/-- C8 (zero-reading rejection). A cycle whose measurement is `0`, or whose data-ready or
read call reports an error, leaves the global `co2` unchanged; a cycle with a successful
non-zero reading publishes it; and from the initial value `450` the global is never `0`,
whatever the sequence of cycles. -/
theorem zero_reading_rejected (co2 readyError readError co2Raw : Nat) :
    (readyError ≠ 0 ∨ readError ≠ 0 ∨ co2Raw = 0 →
        CO2SensorCycle co2 readyError readError co2Raw = co2)
    ∧ (readyError = 0 ∧ readError = 0 ∧ co2Raw ≠ 0 →
        CO2SensorCycle co2 readyError readError co2Raw = co2Raw)
    ∧ (∀ rs : List Reading, publish co2Initial rs ≠ 0) := by
  refine ⟨?_, ?_, ?_⟩
  · intro h
    unfold CO2SensorCycle
    split_ifs <;> first | rfl | omega
  · rintro ⟨h1, h2, h3⟩
    unfold CO2SensorCycle
    split_ifs <;> first | rfl | omega
  · intro rs
    have gen : ∀ (l : List Reading) (c : Nat), c ≠ 0 → publish c l ≠ 0 := by
      intro l
      induction l with
      | nil => intro c hc; exact hc
      | cons r l ih =>
        intro c hc
        unfold publish
        rw [List.foldl_cons]
        apply ih
        unfold CO2SensorCycle
        split_ifs <;> assumption
    exact gen rs co2Initial (by decide)

/-- C8, instance: with `co2 = 800`, a zero measurement keeps `800`, a reading of `612`
replaces it. -/
theorem zero_reading_rejected_witness :
    CO2SensorCycle 800 0 0 0 = 800 ∧ CO2SensorCycle 800 0 0 612 = 612 :=
  ⟨(zero_reading_rejected 800 0 0 0).1 (Or.inr (Or.inr rfl)),
   (zero_reading_rejected 800 0 0 612).2.1 ⟨rfl, rfl, by decide⟩⟩

/-- C1 (pixel partition, index range). The render writes indices that are not valid
strip indices. With the global held at `1999` from start-up, the 253rd frame renders
the smoothed value `1826`: the fully lit range ends at index `8` and the in-between
pixel is index `9`. After a warning flash left through the value `2000`, a frame with
`1900` renders the smoothed value `1999`: the fully lit range ends at index `9` and the
in-between pixel is index `10`. Neither `9` nor `10` is below `PIXEL_COUNT`. -/
theorem render_index_out_of_range :
    (step (run initialState (List.replicate 252 1999)).1 1999).2
      = [ StripCmd.ClearToRange (Color.hsb (mapCO2ToHue 1826) 1 1) 0 8,
          StripCmd.SetPixelColor 9 (Color.hsb (mapCO2ToHue 1826) 1 0),
          StripCmd.ClearToRange OFF 10 9,
          StripCmd.Show ]
    ∧ (step (run initialState [2100, 2000]).1 1900).2
      = [ StripCmd.ClearToRange (Color.hsb (mapCO2ToHue 1999) 1 1) 0 9,
          StripCmd.SetPixelColor 10 (Color.hsb (mapCO2ToHue 1999) 1 (1 / 172)),
          StripCmd.ClearToRange OFF 11 9,
          StripCmd.Show ]
    ∧ ¬ (9 < PIXEL_COUNT) ∧ ¬ (10 < PIXEL_COUNT) := by
  have hl : (run initialState (List.replicate 252 1999)).1.ledCO2 = 1825 := by
    set_option maxRecDepth 100000 in decide
  have hA : (run initialState (List.replicate 252 1999)).1.inAlarm = false := by
    set_option maxRecDepth 100000 in decide
  have hl2 : (run initialState [2100, 2000]).1.ledCO2 = 2000 := by decide
  have hA2 : (run initialState [2100, 2000]).1.inAlarm = false := by decide
  have s1 : smoothCO2 1825 1999 = 1826 := by decide
  have s2 : smoothCO2 2000 1900 = 1999 := by decide
  have f1 : findPixel 1826 = (1826, 9) := by decide
  have f2 : findPixel 1999 = (1998, 10) := by decide
  refine ⟨?_, ?_, by decide, by decide⟩
  · rw [step_render_cmds _ 1999 1825 hA hl (by decide) (by decide) (by decide), s1, f1]
    norm_num [renderCmds, inbetweenBrightness, toU16, PPM_PER_PIXEL_eq, PIXEL_COUNT]
    rfl
  · rw [step_render_cmds _ 1900 2000 hA2 hl2 (by decide) (by decide) (by decide), s2, f2]
    norm_num [renderCmds, inbetweenBrightness, toU16, PPM_PER_PIXEL_eq, PIXEL_COUNT]
    rfl

/-- C2 (smoothing convergence). From `s = 450` with the constant target `T = 500` the
smoothing update never moves: every iterate is `450`, in the bare update and in the
display loop run from start-up, so the smoothed value never equals the target. -/
theorem smoothing_stalls_below_target (n : Nat) :
    (fun s => smoothCO2 s 500)^[n] 450 = 450
    ∧ (run initialState (List.replicate n 500)).1.ledCO2 = 450
    ∧ (run initialState (List.replicate n 500)).1.ledCO2 ≠ 500 := by
  have h2 := run_stalls n initialState rfl rfl
  refine ⟨Function.iterate_fixed (by decide) n, h2, ?_⟩
  rw [h2]; decide

/-- C4 (alarm threshold). A frame with the global at exactly `CO2_MAX = 2000` takes
neither branch: it does not enter the warning flash loop, does not force the luminance
and issues no driver call, from start-up and from every state outside the loop. A
warning flash loop entered at `2100` is left when the global reads `2000`, and as long
as the global stays `2000` no later frame issues a driver call, the last calls on the
strip being `ClearTo(OFF)` and `Show`. One ppm higher, at `2001`, the frame sets the
luminance to `255` and flashes. -/
theorem alarm_not_entered_at_max :
    CO2_MAX ≤ 2000
    ∧ frame initialState 2000 = (initialState, [])
    ∧ (step initialState 2000).1.inAlarm = false
    ∧ (∀ st : DisplayState,
        step { st with inAlarm := false } 2000 = ({ st with inAlarm := false }, []))
    ∧ step initialState 2001
        = ({ initialState with brightness := 255, inAlarm := true },
           [ StripCmd.SetLuminance 255, StripCmd.ClearTo WARNING_COLOR, StripCmd.Show,
             StripCmd.ClearTo OFF, StripCmd.Show ])
    ∧ (step initialState 2100).1.inAlarm = true
    ∧ (step (step initialState 2100).1 2000).1.inAlarm = false
    ∧ (step (step initialState 2100).1 2000).2 = []
    ∧ (∀ n : Nat, (run (run initialState [2100, 2000]).1 (List.replicate n 2000)).2 = []) := by
  have hold : ∀ st : DisplayState, st.inAlarm = false → step st 2000 = (st, []) := by
    intro st hA
    rw [step_of_not_inAlarm st 2000 hA]
    simp [frame, CO2_MIN, CO2_MAX]
  have hA2 : (run initialState [2100, 2000]).1.inAlarm = false := by decide
  refine ⟨by decide, ?_, by decide, fun st => hold _ rfl, ?_, by decide, by decide, ?_, ?_⟩
  · simp [frame, CO2_MIN, CO2_MAX]
  · rw [step_of_not_inAlarm _ 2001 rfl, frame_alarm_entry _ 2001 (by decide)]
    rfl
  · rw [step_of_inAlarm _ 2000 (by decide), alarmCycle_exit _ 2000 (by decide)]
  · intro n
    have gen : ∀ (k : Nat) (st : DisplayState), st.inAlarm = false →
        run st (List.replicate k 2000) = (st, []) := by
      intro k
      induction k with
      | zero => intro st _; rfl
      | succ j ih =>
        intro st hA
        rw [List.replicate_succ, run_cons, hold st hA, ih st hA]
        rfl
    rw [gen n _ hA2]

/-- C5 (band arithmetic). `PPM_PER_PIXEL` is `172`. The render of the smoothed value
`450` lights the range ending at index `0` and puts the in-between pixel at index `1`
with brightness `0`; the render of `622` lights the range ending at index `1` and puts
the in-between pixel at index `2` with brightness `0`; the render of `700` lights the
range ending at index `1` and puts the in-between pixel at index `2` with brightness
`78 / 172`. The in-between pixel is one index above the one the claim names. -/
theorem band_arithmetic_end_to_end :
    PPM_PER_PIXEL = 172
    ∧ (step initialState 451).2
      = [ StripCmd.ClearToRange (Color.hsb (mapCO2ToHue 450) 1 1) 0 0,
          StripCmd.SetPixelColor 1 (Color.hsb (mapCO2ToHue 450) 1 0),
          StripCmd.ClearToRange OFF 2 9,
          StripCmd.Show ]
    ∧ (step (run initialState [2100, 622]).1 623).2
      = [ StripCmd.ClearToRange (Color.hsb (mapCO2ToHue 622) 1 1) 0 1,
          StripCmd.SetPixelColor 2 (Color.hsb (mapCO2ToHue 622) 1 0),
          StripCmd.ClearToRange OFF 3 9,
          StripCmd.Show ]
    ∧ (step (run initialState [2100, 700]).1 701).2
      = [ StripCmd.ClearToRange (Color.hsb (mapCO2ToHue 700) 1 1) 0 1,
          StripCmd.SetPixelColor 2 (Color.hsb (mapCO2ToHue 700) 1 (78 / 172)),
          StripCmd.ClearToRange OFF 3 9,
          StripCmd.Show ] := by
  have hl1 : initialState.ledCO2 = 450 := rfl
  have hl2 : (run initialState [2100, 622]).1.ledCO2 = 622 := by decide
  have hA2 : (run initialState [2100, 622]).1.inAlarm = false := by decide
  have hl3 : (run initialState [2100, 700]).1.ledCO2 = 700 := by decide
  have hA3 : (run initialState [2100, 700]).1.inAlarm = false := by decide
  have s1 : smoothCO2 450 451 = 450 := by decide
  have s2 : smoothCO2 622 623 = 622 := by decide
  have s3 : smoothCO2 700 701 = 700 := by decide
  have f1 : findPixel 450 = (450, 1) := by decide
  have f2 : findPixel 622 = (622, 2) := by decide
  have f3 : findPixel 700 = (622, 2) := by decide
  refine ⟨PPM_PER_PIXEL_eq, ?_, ?_, ?_⟩
  · rw [step_render_cmds _ 451 450 rfl hl1 (by decide) (by decide) (by decide), s1, f1]
    norm_num [renderCmds, inbetweenBrightness, toU16, PPM_PER_PIXEL_eq, PIXEL_COUNT]
  · rw [step_render_cmds _ 623 622 hA2 hl2 (by decide) (by decide) (by decide), s2, f2]
    norm_num [renderCmds, inbetweenBrightness, toU16, PPM_PER_PIXEL_eq, PIXEL_COUNT]
  · rw [step_render_cmds _ 701 700 hA3 hl3 (by decide) (by decide) (by decide), s3, f3]
    norm_num [renderCmds, inbetweenBrightness, toU16, PPM_PER_PIXEL_eq, PIXEL_COUNT]

/-- C7 (alarm entry and exit). On the sequence `1800, 2100, 2100, 1900` from start-up:
the first step renders the smoothed value `463`; the warning flash loop is entered at
the first `2100` and takes another pass at the second; at `1900` it is left with the
smoothed value set to `1900`, and this holds from every state before the `2100`.
The exit issues no driver call, and as long as the global stays `1900` no later frame
issues one: the gradient for `1900` is not rendered, the last calls on the strip being
`ClearTo(OFF)` and `Show`. -/
theorem alarm_exit_does_not_render :
    (step initialState 1800).2
      = [ StripCmd.ClearToRange (Color.hsb (mapCO2ToHue 463) 1 1) 0 0,
          StripCmd.SetPixelColor 1 (Color.hsb (mapCO2ToHue 463) 1 (13 / 172)),
          StripCmd.ClearToRange OFF 2 9,
          StripCmd.Show ]
    ∧ (run initialState [1800]).1.inAlarm = false
    ∧ (run initialState [1800, 2100]).1.inAlarm = true
    ∧ (step (run initialState [1800]).1 2100).2
        = [ StripCmd.SetLuminance 255, StripCmd.ClearTo WARNING_COLOR, StripCmd.Show,
            StripCmd.ClearTo OFF, StripCmd.Show ]
    ∧ (step (run initialState [1800, 2100]).1 2100).2
        = [ StripCmd.ClearTo WARNING_COLOR, StripCmd.Show, StripCmd.ClearTo OFF,
            StripCmd.Show ]
    ∧ (run initialState [1800, 2100, 2100]).1.inAlarm = true
    ∧ (step (run initialState [1800, 2100, 2100]).1 1900).2 = []
    ∧ (run initialState [1800, 2100, 2100, 1900]).1.ledCO2 = 1900
    ∧ (run initialState [1800, 2100, 2100, 1900]).1.inAlarm = false
    ∧ (∀ st : DisplayState, (run st [2100, 2100, 1900]).1.ledCO2 = 1900
        ∧ (run st [2100, 2100, 1900]).1.inAlarm = false)
    ∧ (∀ n : Nat, (run (run initialState [1800, 2100, 2100, 1900]).1
        (List.replicate n 1900)).2 = []) := by
  have hA1 : (run initialState [1800]).1.inAlarm = false := by decide
  have hA2 : (run initialState [1800, 2100]).1.inAlarm = true := by decide
  have hA3 : (run initialState [1800, 2100, 2100]).1.inAlarm = true := by decide
  have hl4 : (run initialState [1800, 2100, 2100, 1900]).1.ledCO2 = 1900 := by decide
  have hA4 : (run initialState [1800, 2100, 2100, 1900]).1.inAlarm = false := by decide
  have s1 : smoothCO2 450 1800 = 463 := by decide
  have f1 : findPixel 463 = (450, 1) := by decide
  refine ⟨?_, hA1, hA2, ?_, ?_, hA3, ?_, hl4, hA4, ?_, ?_⟩
  · rw [step_render_cmds _ 1800 450 rfl rfl (by decide) (by decide) (by decide), s1, f1]
    norm_num [renderCmds, inbetweenBrightness, toU16, PPM_PER_PIXEL_eq, PIXEL_COUNT]
  · rw [step_of_not_inAlarm _ 2100 hA1, frame_alarm_entry _ 2100 (by decide)]
    rfl
  · rw [step_of_inAlarm _ 2100 hA2, alarmCycle_flash _ 2100 (by decide)]
    rfl
  · rw [step_of_inAlarm _ 1900 hA3, alarmCycle_exit _ 1900 (by decide)]
  · intro st
    have e1 : (step st 2100).1.inAlarm = true := by
      cases hA : st.inAlarm with
      | true => rw [step_of_inAlarm st 2100 hA, alarmCycle_flash st 2100 (by decide)]; exact hA
      | false => rw [step_of_not_inAlarm st 2100 hA, frame_alarm_entry st 2100 (by decide)]
    have e2 : (step (step st 2100).1 2100).1.inAlarm = true := by
      rw [step_of_inAlarm _ 2100 e1, alarmCycle_flash _ 2100 (by decide)]; exact e1
    have e3 : (run st [2100, 2100, 1900]).1 = (step (step (step st 2100).1 2100).1 1900).1 := rfl
    rw [e3, step_of_inAlarm _ 1900 e2, alarmCycle_exit _ 1900 (by decide)]
    exact ⟨rfl, rfl⟩
  · intro n
    rw [run_idle 1900 (by decide) (by decide) n _ hl4 hA4]

/-- C9 (hue range). After the sequence `2100, 400, 500` from start-up (all non-zero
16 bit values) the smoothed value is `401`, the stored hue is `mapCO2ToHue 401`, and this
hue, `4797 / 15500`, is above `CO2_MIN_HUE = 3 / 10`; already after `2100, 400` the
smoothed value is `400`, whose hue `48 / 155` is above `CO2_MIN_HUE`. The brightness of
the in-between pixel rendered for `401` is negative. -/
theorem hue_above_range_after_alarm_exit :
    (∀ c ∈ [2100, 400, 500], c ≠ 0 ∧ c < 65536)
    ∧ (run initialState [2100, 400]).1.ledCO2 = 400
    ∧ mapCO2ToHue 400 = 48 / 155
    ∧ (run initialState [2100, 400, 500]).1.ledCO2 = 401
    ∧ (run initialState [2100, 400, 500]).1.hue = mapCO2ToHue 401
    ∧ mapCO2ToHue 401 = 4797 / 15500
    ∧ ¬ (CO2_MAX_HUE ≤ mapCO2ToHue 400 ∧ mapCO2ToHue 400 ≤ CO2_MIN_HUE)
    ∧ ¬ (CO2_MAX_HUE ≤ mapCO2ToHue 401 ∧ mapCO2ToHue 401 ≤ CO2_MIN_HUE)
    ∧ (step (run initialState [2100, 400]).1 500).2
      = [ StripCmd.ClearToRange (Color.hsb (mapCO2ToHue 401) 1 1) 0 0,
          StripCmd.SetPixelColor 1 (Color.hsb (mapCO2ToHue 401) 1 (-49 / 172)),
          StripCmd.ClearToRange OFF 2 9,
          StripCmd.Show ] := by
  have hl : (run initialState [2100, 400]).1.ledCO2 = 400 := by decide
  have hA : (run initialState [2100, 400]).1.inAlarm = false := by decide
  have s1 : smoothCO2 400 500 = 401 := by decide
  have f1 : findPixel 401 = (450, 1) := by decide
  have m0 : mapCO2ToHue 400 = 48 / 155 := by
    norm_num [mapCO2ToHue, CO2_MIN, CO2_MAX, CO2_MIN_HUE, CO2_MAX_HUE]
  have m1 : mapCO2ToHue 401 = 4797 / 15500 := by
    norm_num [mapCO2ToHue, CO2_MIN, CO2_MAX, CO2_MIN_HUE, CO2_MAX_HUE]
  have e : (run initialState [2100, 400, 500]).1 = (step (run initialState [2100, 400]).1 500).1 :=
    rfl
  refine ⟨by decide, hl, m0, by decide, ?_, m1, ?_, ?_, ?_⟩
  · rw [e, step_render_state _ 500 400 hA hl (by decide) (by decide) (by decide), s1]
  · rw [m0]; norm_num [CO2_MIN_HUE]
  · rw [m1]; norm_num [CO2_MIN_HUE]
  · rw [step_render_cmds _ 500 400 hA hl (by decide) (by decide) (by decide), s1, f1]
    norm_num [renderCmds, inbetweenBrightness, toU16, PPM_PER_PIXEL_eq, PIXEL_COUNT, CO2_MIN]

end OSAQS
